import Mathlib

/-!
# Verification of the StarRocks Java UDF bridge interface (`be/src/udf/java/java_udf.h`)

This file gives a shallow embedding of the data model and operations of the
Java UDF/UDAF bridge and proves the behavioural claims of its specification.

The repository ships the bridge's interface header.  Operations whose bodies
appear inline in the header (the move constructors and move assignments of
`DirectByteBuffer` and `JVMClass`, the accessors) are embedded directly from
that code.  Operations that the header only declares (the JNI-backed bodies:
boxing, string conversion, `clear`, the class loader, the analyzer, the UDAF
state machine) are modelled from the specification; each such definition says
so in its doc comment.

JNI object references (`jobject`, `jclass`, `jstring`) are modelled as `Nat`
identifiers, with `Option Nat` for possibly-null handles.  Machine integers
are modelled as `Int`/`Nat` with explicit range conditions where they matter.
-/

/-! ## DirectByteBuffer: fields and move semantics (from the header, lines 98-137)

A `DirectByteBuffer` owns a managed-side handle (`_handle`), a borrowed
native pointer (`_data`) and a capacity.  The move constructor and move
assignment operator are defined inline in the header and are embedded
verbatim below.
-/

structure DirectByteBuffer where
  _handle : Option Nat
  _data : Option Nat
  _capacity : Int
deriving DecidableEq, Repr

/-- A `DirectByteBuffer` whose fields are all nulled out, the state the
inline move constructor leaves the source object in. -/
def DirectByteBuffer.nulled : DirectByteBuffer :=
  { _handle := none, _data := none, _capacity := 0 }

/-- `DirectByteBuffer(DirectByteBuffer&& other)` (header lines 110-118):
the new object copies `other`'s three fields, then `other`'s handle and data
are set to `nullptr` and its capacity to `0`.  Returns
(constructed object, `other` afterwards). -/
def DirectByteBuffer.moveCtor (other : DirectByteBuffer) :
    DirectByteBuffer × DirectByteBuffer :=
  ({ _handle := other._handle, _data := other._data, _capacity := other._capacity },
   DirectByteBuffer.nulled)

/-- Modelled from the spec: the `DirectByteBuffer` destructor releases only
the managed-side global reference (and releases nothing when the handle is
null, as for a moved-from object).  Returns the list of released handles. -/
def DirectByteBuffer.destruct (b : DirectByteBuffer) : List Nat :=
  match b._handle with
  | none => []
  | some h => [h]

/-- A heap of `DirectByteBuffer` objects addressed by object identity, so
that the aliasing in `operator=(DirectByteBuffer&&)` (in particular
self-move-assignment) is represented faithfully. -/
def DBBHeap : Type := Nat → DirectByteBuffer

/-- Point update of a `DBBHeap`. -/
def DBBHeap.set (h : DBBHeap) (i : Nat) (b : DirectByteBuffer) : DBBHeap :=
  fun j => if j = i then b else h j

/-- `DirectByteBuffer& operator=(DirectByteBuffer&& other)` (header lines
120-126), executed on a heap so that `this` and `other` may alias:
`DirectByteBuffer tmp(std::move(other));` moves `other`'s fields into a
temporary and nulls `other`; then `this`'s three fields are swapped with
`tmp`'s; `tmp` is destroyed at end of scope, releasing the handle it now
holds (the pre-assignment handle of `this`).  Returns the heap afterwards
and the handles released by `tmp`'s destructor. -/
def DBBHeap.moveAssign (h : DBBHeap) (thisId otherId : Nat) :
    DBBHeap × List Nat :=
  let tmp := h otherId
  let h1 := h.set otherId DirectByteBuffer.nulled
  let thisVal := h1 thisId
  let h2 := h1.set thisId tmp
  (h2, thisVal.destruct)

/-! ## JVMClass: fields and move semantics (from the header, lines 140-167) -/

structure JVMClass where
  _clazz : Option Nat
deriving DecidableEq, Repr

/-- `JVMClass(JVMClass&& other)` (header lines 149-152): the new object
takes `other._clazz` and `other._clazz` is set to `nullptr`. -/
def JVMClass.moveCtor (other : JVMClass) : JVMClass × JVMClass :=
  ({ _clazz := other._clazz }, { _clazz := none })

/-- Modelled from the spec: the `JVMClass` destructor releases the global
class reference if one is held. -/
def JVMClass.destruct (c : JVMClass) : List Nat :=
  match c._clazz with
  | none => []
  | some h => [h]

/-- A heap of `JVMClass` objects addressed by object identity. -/
def JVMClassHeap : Type := Nat → JVMClass

/-- Point update of a `JVMClassHeap`. -/
def JVMClassHeap.set (h : JVMClassHeap) (i : Nat) (c : JVMClass) : JVMClassHeap :=
  fun j => if j = i then c else h j

/-- `JVMClass& operator=(JVMClass&& other)` (header lines 154-158), the same
temporary-and-swap pattern as `DirectByteBuffer`'s move assignment. -/
def JVMClassHeap.moveAssign (h : JVMClassHeap) (thisId otherId : Nat) :
    JVMClassHeap × List Nat :=
  let tmp := h otherId
  let h1 := h.set otherId { _clazz := none }
  let thisVal := h1 thisId
  let h2 := h1.set thisId tmp
  (h2, thisVal.destruct)

/-- `DirectByteBuffer(jobject&& handle, void* data, int capacity)` (header
lines 103-104): member-initializes the three fields from the arguments. -/
def DirectByteBuffer.mk3 (handle : Option Nat) (data : Option Nat)
    (capacity : Int) : DirectByteBuffer :=
  { _handle := handle, _data := data, _capacity := capacity }

/-- `jobject handle()` (header line 129). -/
def DirectByteBuffer.handle (b : DirectByteBuffer) : Option Nat := b._handle

/-- `void* data()` (header line 130). -/
def DirectByteBuffer.data (b : DirectByteBuffer) : Option Nat := b._data

/-- `int capacity()` (header line 131). -/
def DirectByteBuffer.capacity (b : DirectByteBuffer) : Int := b._capacity

/-! ## The managed-side view of a direct byte buffer (for `clear()`, spec 4.3)

The `position`/`limit` cursor state lives in the managed `java.nio.ByteBuffer`
object behind `_handle`; the native block contents are `memory` (borrowed,
never owned by the buffer object).
-/

structure BufferView where
  handle : Option Nat
  data : Option Nat
  capacity : Int
  position : Int
  limit : Int
  memory : List Nat
deriving DecidableEq, Repr

/-- Modelled from the spec: `DirectByteBuffer(void* data, int capacity)`
(declared at header line 102, body not in the repository slice) allocates a
managed zero-copy view over the caller's block; the capacity is fixed from
the argument and the view initially spans the whole block. -/
def BufferView.construct (h d : Nat) (cap : Int) (mem : List Nat) : BufferView :=
  { handle := some h, data := some d, capacity := cap,
    position := 0, limit := cap, memory := mem }

/-- Modelled from the spec: `void clear()` (declared at header line 128, body
not in the repository slice) resets only the managed view's position and
limit (the idempotent cursor reset of `java.nio.Buffer.clear`), never the
memory contents, the data pointer or the capacity. -/
def BufferView.clear (b : BufferView) : BufferView :=
  { b with position := 0, limit := b.capacity }

/-! ## Aggregate state lifecycle (`UDAFFunction`, header lines 237-268; spec 4.8)

The header declares `create`/`destroy`/`update`/`merge`/`serialize`/
`serialize_size`/`finalize`/`reset`/`get_values`/`window_update_batch`
without bodies; the per-state lifecycle contract is modelled from the spec.
-/

inductive AggLifecycle
  | UNCREATED
  | ACTIVE
  | DESTROYED
deriving DecidableEq, Repr, Fintype

inductive AggOp
  | create
  | destroy
  | update
  | merge
  | finalize
  | serialize
  | serialize_size
  | reset
  | get_values
  | window_update_batch
deriving DecidableEq, Repr, Fintype

/-- Modelled from the spec: the lifecycle contract of one aggregate state
handle under the `UDAFFunction` operations.  `none` means the call is a
caller contract violation and is rejected; `some s` is the state after a
legal call. -/
def stepOp : AggLifecycle → AggOp → Option AggLifecycle
  | .UNCREATED, .create => some .ACTIVE
  | .ACTIVE, .create => none
  | .ACTIVE, .destroy => some .DESTROYED
  | .ACTIVE, _ => some .ACTIVE
  | _, _ => none

/-! ## Primitive boxing (`DECLARE_NEW_BOX`, header lines 24-26 and 50-56)

`DECLARE_NEW_BOX(TYPE, CLAZZ)` declares `jobject newCLAZZ(TYPE value)` and
`TYPE valTYPE(jobject obj)` for the seven primitive kinds; the bodies (JNI
calls through the cached `valueOf`/`xxxValue` method ids) are not in the
repository slice and are modelled from the spec.  `float`/`double` values
are represented by their IEEE-754 bit patterns as `Nat`.
-/

inductive JBox
  | jBoolean (v : Nat)
  | jByte (v : Int)
  | jShort (v : Int)
  | jInteger (v : Int)
  | jLong (v : Int)
  | jFloat (bits : Nat)
  | jDouble (bits : Nat)
deriving DecidableEq, Repr

/-- Modelled from the spec: `jobject newBoolean(uint8_t value)`. -/
def newBoolean (v : Nat) : JBox := .jBoolean v

/-- Modelled from the spec: `jobject newByte(int8_t value)`. -/
def newByte (v : Int) : JBox := .jByte v

/-- Modelled from the spec: `jobject newShort(int16_t value)`. -/
def newShort (v : Int) : JBox := .jShort v

/-- Modelled from the spec: `jobject newInteger(int32_t value)`. -/
def newInteger (v : Int) : JBox := .jInteger v

/-- Modelled from the spec: `jobject newLong(int64_t value)`. -/
def newLong (v : Int) : JBox := .jLong v

/-- Modelled from the spec: `jobject newFloat(float value)` (bit pattern). -/
def newFloat (bits : Nat) : JBox := .jFloat bits

/-- Modelled from the spec: `jobject newDouble(double value)` (bit pattern). -/
def newDouble (bits : Nat) : JBox := .jDouble bits

/-- Modelled from the spec: `uint8_t valuint8_t(jobject obj)` unboxes a
`Boolean`; `none` when the object is not a `Boolean` box. -/
def valuint8_t : JBox → Option Nat
  | .jBoolean v => some v
  | _ => none

/-- Modelled from the spec: `int8_t valint8_t(jobject obj)` unboxes a `Byte`. -/
def valint8_t : JBox → Option Int
  | .jByte v => some v
  | _ => none

/-- Modelled from the spec: `int16_t valint16_t(jobject obj)` unboxes a `Short`. -/
def valint16_t : JBox → Option Int
  | .jShort v => some v
  | _ => none

/-- Modelled from the spec: `int32_t valint32_t(jobject obj)` unboxes an `Integer`. -/
def valint32_t : JBox → Option Int
  | .jInteger v => some v
  | _ => none

/-- Modelled from the spec: `int64_t valint64_t(jobject obj)` unboxes a `Long`. -/
def valint64_t : JBox → Option Int
  | .jLong v => some v
  | _ => none

/-- Modelled from the spec: `float valfloat(jobject obj)` unboxes a `Float`. -/
def valfloat : JBox → Option Nat
  | .jFloat bits => some bits
  | _ => none

/-- Modelled from the spec: `double valdouble(jobject obj)` unboxes a `Double`. -/
def valdouble : JBox → Option Nat
  | .jDouble bits => some bits
  | _ => none

/-! ## UDAF state serialization (header lines 248-251; spec 4.8)

`serialize_size(state)` reports the byte count required and
`serialize(state, buffer)` then writes the serialized state into the
caller-supplied buffer: the two-phase size-then-fill protocol.  The bodies
are not in the repository slice; the model, from the spec, serializes the
accumulated values (as 64-bit little-endian words) into the shared buffer.
-/

structure UDAFState where
  acc : List Int
deriving DecidableEq, Repr

/-- Little-endian 8-byte encoding of one accumulated value (mod 2^64). -/
def encodeInt64 (v : Int) : List Nat :=
  (List.range 8).map (fun i => (v % 2 ^ 64).toNat / 2 ^ (8 * i) % 2 ^ 8)

/-- Modelled from the spec: the serialized byte representation of an
aggregate state's accumulated data. -/
def UDAFState.serializedBytes (s : UDAFState) : List Nat :=
  s.acc.flatMap encodeInt64

/-- Modelled from the spec: `int serialize_size(jobject state)` (header line
251) reports the number of bytes the serialized state requires. -/
def serialize_size (state : UDAFState) : Nat :=
  state.serializedBytes.length

/-- Overwrite the front of a memory block with the given bytes, leaving the
rest of the block unchanged. -/
def writeBytes (mem bs : List Nat) : List Nat :=
  bs ++ mem.drop bs.length

/-- Modelled from the spec: `void serialize(jobject state, jobject buffer)`
(header line 249) writes the serialized state into the caller-supplied
buffer and reports the number of bytes written. -/
def serialize (state : UDAFState) (buffer : BufferView) : BufferView × Nat :=
  ({ buffer with memory := writeBytes buffer.memory state.serializedBytes },
   state.serializedBytes.length)

/-! ## Scalar UDF context construction (`JavaUDFContext`, header lines 219-232; spec 4.7)

The construction sequence (class load, instance creation, method resolution)
lives in the expression layer, outside the repository slice; it is modelled
from the spec as a three-step fallible sequence that tracks every acquired
and released managed handle.
-/

inductive UDFError
  | AttachmentError
  | ClassNotFoundError
  | MethodNotFoundError
  | ConstructionError
  | InvocationError
  | SignatureDecodeError
deriving DecidableEq, Repr

/-- The environment a construction attempt runs against: whether each step
succeeds, and the handles the successful steps would acquire. -/
structure ConstructEnv where
  classLoads : Bool
  instanceOk : Bool
  methodsOk : Bool
  classHandle : Nat
  instanceHandle : Nat
deriving DecidableEq, Repr

/-- The handles a fully constructed scalar context owns (`udf_class`,
`udf_handle` of `JavaUDFContext`, header lines 225-226). -/
structure UDFContextModel where
  udf_class : Nat
  udf_handle : Nat
deriving DecidableEq, Repr

/-- Outcome of a construction attempt: the single aggregate result plus the
full acquisition/release event lists. -/
structure ConstructTrace where
  result : Except UDFError UDFContextModel
  acquired : List Nat
  released : List Nat

/-- Modelled from the spec: scalar UDF context construction performs class
load, then instance creation, then method resolution; on the first failing
step it releases every handle acquired so far and returns exactly one
aggregate failure, returning no partial context. -/
def constructUDFContext (e : ConstructEnv) : ConstructTrace :=
  if e.classLoads then
    if e.instanceOk then
      if e.methodsOk then
        { result := .ok { udf_class := e.classHandle, udf_handle := e.instanceHandle },
          acquired := [e.classHandle, e.instanceHandle],
          released := [] }
      else
        { result := .error .MethodNotFoundError,
          acquired := [e.classHandle, e.instanceHandle],
          released := [e.classHandle, e.instanceHandle] }
    else
      { result := .error .ConstructionError,
        acquired := [e.classHandle],
        released := [e.classHandle] }
  else
    { result := .error .ClassNotFoundError,
      acquired := [],
      released := [] }

/-- Handles reachable through the construction result (owned by a returned
context); none when construction failed. -/
def ConstructTrace.retained (t : ConstructTrace) : List Nat :=
  match t.result with
  | .ok ctx => [ctx.udf_class, ctx.udf_handle]
  | .error _ => []

/-- Handles acquired during construction but neither released on the failure
path nor owned by a returned context: the leaked handles. -/
def ConstructTrace.leaked (t : ConstructTrace) : List Nat :=
  t.acquired.filter (fun h => !(t.released.contains h || t.retained.contains h))

/-! ## String marshaling (`to_jstring`/`to_cxx_string`, header lines 43-46; spec 4.2)

The bodies are not in the repository slice.  Modelled from the spec:
native-to-managed decodes the native UTF-8 bytes through the cached UTF_8
charset into a managed string (a sequence of Unicode code points);
managed-to-native encodes the code points back to standard UTF-8 (the
modified-UTF handling makes the output standard UTF-8, not CESU-8).
-/

/-- Is `b` a UTF-8 continuation byte (`10xxxxxx`)? -/
def isCont (b : Nat) : Bool := 0x80 ≤ b && b < 0xC0

/-- Standard UTF-8 encoding of one Unicode code point. -/
def utf8EncodeChar (c : Nat) : List Nat :=
  if c < 0x80 then [c]
  else if c < 0x800 then [0xC0 + c / 64, 0x80 + c % 64]
  else if c < 0x10000 then [0xE0 + c / 4096, 0x80 + c / 64 % 64, 0x80 + c % 64]
  else [0xF0 + c / 262144, 0x80 + c / 4096 % 64, 0x80 + c / 64 % 64, 0x80 + c % 64]

/-- Standard UTF-8 encoding of a sequence of code points. -/
def utf8Encode (cs : List Nat) : List Nat := cs.flatMap utf8EncodeChar

/-- Decode the first code point of a two-byte (`110xxxxx 10xxxxxx`) UTF-8
sequence, rejecting overlong forms. -/
def decodeTwo (b1 : Nat) : List Nat → Option (Nat × List Nat)
  | b2 :: rest2 =>
    if isCont b2 ∧ 0x80 ≤ (b1 - 0xC0) * 64 + (b2 - 0x80) then
      some ((b1 - 0xC0) * 64 + (b2 - 0x80), rest2)
    else none
  | [] => none

/-- Decode the first code point of a three-byte (`1110xxxx`) UTF-8 sequence,
rejecting overlong forms and surrogates. -/
def decodeThree (b1 : Nat) : List Nat → Option (Nat × List Nat)
  | b2 :: b3 :: rest3 =>
    if isCont b2 ∧ isCont b3
        ∧ 0x800 ≤ (b1 - 0xE0) * 4096 + (b2 - 0x80) * 64 + (b3 - 0x80)
        ∧ ¬(0xD800 ≤ (b1 - 0xE0) * 4096 + (b2 - 0x80) * 64 + (b3 - 0x80)
            ∧ (b1 - 0xE0) * 4096 + (b2 - 0x80) * 64 + (b3 - 0x80) < 0xE000) then
      some ((b1 - 0xE0) * 4096 + (b2 - 0x80) * 64 + (b3 - 0x80), rest3)
    else none
  | _ => none

/-- Decode the first code point of a four-byte (`11110xxx`) UTF-8 sequence,
rejecting overlong forms and code points past U+10FFFF. -/
def decodeFour (b1 : Nat) : List Nat → Option (Nat × List Nat)
  | b2 :: b3 :: b4 :: rest4 =>
    if isCont b2 ∧ isCont b3 ∧ isCont b4
        ∧ 0x10000 ≤ (b1 - 0xF0) * 262144 + (b2 - 0x80) * 4096
            + (b3 - 0x80) * 64 + (b4 - 0x80)
        ∧ (b1 - 0xF0) * 262144 + (b2 - 0x80) * 4096
            + (b3 - 0x80) * 64 + (b4 - 0x80) < 0x110000 then
      some ((b1 - 0xF0) * 262144 + (b2 - 0x80) * 4096
        + (b3 - 0x80) * 64 + (b4 - 0x80), rest4)
    else none
  | _ => none

/-- Decode the first code point of a UTF-8 byte sequence, returning it with
the remaining bytes; `none` on malformed input (stray continuation byte,
truncated sequence, overlong form, surrogate, out-of-range). -/
def utf8DecodeFirst : List Nat → Option (Nat × List Nat)
  | [] => none
  | b1 :: rest =>
    if b1 < 0x80 then some (b1, rest)
    else if b1 < 0xC0 then none
    else if b1 < 0xE0 then decodeTwo b1 rest
    else if b1 < 0xF0 then decodeThree b1 rest
    else if b1 < 0xF8 then decodeFour b1 rest
    else none

/-- Decode a UTF-8 byte sequence into code points, consuming one code point
per step; the fuel bounds the number of steps (each step consumes at least
one byte, so the byte count is always enough fuel). -/
def utf8DecodeLoop : Nat → List Nat → Option (List Nat)
  | _, [] => some []
  | 0, _ :: _ => none
  | fuel + 1, b1 :: rest =>
    match utf8DecodeFirst (b1 :: rest) with
    | none => none
    | some (c, rest2) => (utf8DecodeLoop fuel rest2).map (fun cs => c :: cs)

/-- Decode a UTF-8 byte sequence into code points; `none` on malformed
input. -/
def utf8Decode (bs : List Nat) : Option (List Nat) := utf8DecodeLoop bs.length bs

/-- Modelled from the spec: `jstring to_jstring(const std::string& str)`
(header line 46) builds the managed string from the native UTF-8 bytes via
the byte-array constructor with the cached UTF_8 charset; represented as
decoding to code points (`none` when the bytes are not valid UTF-8). -/
def to_jstring (s : List Nat) : Option (List Nat) := utf8Decode s

/-- Modelled from the spec: `std::string to_cxx_string(jstring str)` (header
line 43) converts the managed string back to a native UTF-8 string,
handling modified-UTF so the result is standard UTF-8. -/
def to_cxx_string (js : List Nat) : List Nat := utf8Encode js

/-! ## Windowed update (`window_update_batch`, header lines 260-261; spec 4.8)

The body is not in the repository slice.  Modelled from the spec: the bridge
marshals the state handle, the four frame-boundary integers and the column
handles into the managed call's argument vector exactly as given, without
reordering or deduplication; the managed aggregate, reading them back
positionally, retracts the rows that left the frame when `frame_start`
advanced.
-/

inductive JValue
  | jobj (h : Nat)
  | jlong (v : Int)
deriving DecidableEq, Repr

/-- Modelled from the spec: the JNI argument vector `window_update_batch`
passes to the managed-side windowed update: the state handle, then
`peer_group_start`, `peer_group_end`, `frame_start`, `frame_end` in that
order, then the `col_sz` column handles in order. -/
def window_update_batch (state : Nat)
    (peer_group_start peer_group_end frame_start frame_end : Int)
    (cols : List Nat) : List JValue :=
  [.jobj state, .jlong peer_group_start, .jlong peer_group_end,
   .jlong frame_start, .jlong frame_end] ++ cols.map .jobj

/-- Read a suffix of column handles back from an argument vector. -/
def parseCols : List JValue → Option (List Nat)
  | [] => some []
  | .jobj h :: rest =>
    match parseCols rest with
    | some hs => some (h :: hs)
    | none => none
  | _ => none

/-- Modelled from the spec: the managed-side windowed-update entry point
reads its arguments back positionally: state handle, the four boundary
integers, then the column handles. -/
def parseWindowArgs (args : List JValue) :
    Option (Nat × Int × Int × Int × Int × List Nat) :=
  match args with
  | .jobj st :: .jlong a :: .jlong b :: .jlong c :: .jlong d :: rest =>
    match parseCols rest with
    | some hs => some (st, a, b, c, d, hs)
    | none => none
  | _ => none

/-- The frame the managed aggregate last saw. -/
structure ManagedWindowState where
  frame_start : Int
  frame_end : Int
deriving DecidableEq, Repr

/-- Modelled from the spec: on receiving a new frame description the managed
aggregate retracts exactly the rows `[old frame_start, new frame_start)`
that left the frame when `frame_start` increased, and records the new
frame.  Returns (new state, retracted row indices). -/
def applyWindowFrame (st : ManagedWindowState) (fs fe : Int) :
    ManagedWindowState × List Int :=
  ({ frame_start := fs, frame_end := fe },
   (List.range (fs - st.frame_start).toNat).map (fun k => st.frame_start + ((k : Nat) : Int)))

/-! ## Isolated class loader (`ClassLoader`, header lines 171-187; spec 4.5)

Bodies of `init`/`getClass` are not in the repository slice.  The model
carries the set of classes resolvable under the loader's path as an
association list; `init()` readies the loader (resolving `_handle` and
`_get_class`, both null after construction per header lines 185-186).
-/

structure ClassLoaderModel where
  _path : String
  inited : Bool
  classes : List (String × Nat)
deriving DecidableEq, Repr

/-- `ClassLoader(std::string path)` (header line 174): stores the path; the
method id and loader handle start null, so the loader is not yet ready. -/
def ClassLoaderModel.construct (path : String)
    (classes : List (String × Nat)) : ClassLoaderModel :=
  { _path := path, inited := false, classes := classes }

/-- Modelled from the spec: `Status init()` (header line 181) creates the
isolated managed-side loader for the path and resolves its lookup method,
after which `getClass` may be called. -/
def ClassLoaderModel.init (l : ClassLoaderModel) : ClassLoaderModel :=
  { l with inited := true }

/-- First binding of `name` among the classes resolvable under the loader. -/
def lookupClass : List (String × Nat) → String → Option Nat
  | [], _ => none
  | (n, h) :: rest, name => if n = name then some h else lookupClass rest name

/-- Result of `getClass`: a loaded class, a `ClassNotFoundError`, or the
undefined-behaviour marker for calling `getClass` before `init()`. -/
inductive GetClassResult
  | ok (c : JVMClass)
  | classNotFound
  | contractViolation
deriving DecidableEq, Repr

/-- Modelled from the spec: `JVMClass getClass(const std::string& className)`
(header line 180) resolves the name under this loader, failing with
`ClassNotFoundError` when it cannot be resolved; calling it before `init()`
is a programming error (`contractViolation`). -/
def ClassLoaderModel.getClass (l : ClassLoaderModel)
    (className : String) : GetClassResult :=
  if l.inited then
    match lookupClass l.classes className with
    | some h => .ok { _clazz := some h }
    | none => .classNotFound
  else .contractViolation

/-! ## Signature analyzer (`ClassAnalyzer`, header lines 204-212; spec 4.6)

Bodies are not in the repository slice.  Modelled from the spec: one
reflective scan of the class's declared methods in declaration order,
resolving an ambiguous name to the first match, and failing with
`MethodNotFoundError` when no method with the name exists.
-/

structure JMethod where
  name : String
  sign : String
deriving DecidableEq, Repr

/-- One scan of the declared methods in declaration order: the first method
whose name matches. -/
def findMethod : List JMethod → String → Option JMethod
  | [], _ => none
  | m :: rest, nm => if m.name = nm then some m else findMethod rest nm

/-- Modelled from the spec: `Status has_method(jclass, method, bool*)`
(header line 208): scans the declared methods, failing with
`MethodNotFoundError` when no method with the name exists. -/
def has_method (methods : List JMethod) (nm : String) : Except UDFError Bool :=
  match findMethod methods nm with
  | some _ => .ok true
  | none => .error .MethodNotFoundError

/-- Modelled from the spec: `Status get_signature(jclass, method, string*)`
(header line 209): returns the signature of the first declared method with
the name, failing with `MethodNotFoundError` when none exists. -/
def get_signature (methods : List JMethod) (nm : String) : Except UDFError String :=
  match findMethod methods nm with
  | some m => .ok m.sign
  | none => .error .MethodNotFoundError

/-! ## Theorems -/

/-- C1: for every aggregate state handle, `update`, `merge`, `finalize`,
`serialize`, `serialize_size`, `reset`, `get_values` and
`window_update_batch` are legal only between `create()` and `destroy()`:
any call before `create()` or after `destroy()` is rejected as a contract
violation, and the only legal transitions are
`UNCREATED -create()-> ACTIVE -update()/merge()/...-> ACTIVE -destroy()-> DESTROYED`. -/
theorem C1_aggregate_lifecycle :
    (∀ s : AggLifecycle, ∀ op : AggOp,
      (stepOp s op).isSome ↔
        ((op = .create ∧ s = .UNCREATED) ∨ (op ≠ .create ∧ s = .ACTIVE)))
    ∧ (∀ s s' : AggLifecycle, ∀ op : AggOp,
      stepOp s op = some s' ↔
        ((s = .UNCREATED ∧ op = .create ∧ s' = .ACTIVE)
          ∨ (s = .ACTIVE ∧ op ≠ .create ∧ op ≠ .destroy ∧ s' = .ACTIVE)
          ∨ (s = .ACTIVE ∧ op = .destroy ∧ s' = .DESTROYED))) := by
  constructor <;> decide

/-- C2: for every primitive kind in {boolean, byte, short, int, long, float,
double} and every value of that kind (including the boundary values),
unboxing the result of boxing returns the original value. -/
theorem C2_box_unbox_round_trip
    (vb : Nat) (v8 v16 v32 v64 : Int) (f32 f64 : Nat)
    (hb : vb < 2 ^ 8)
    (h8l : -2 ^ 7 ≤ v8) (h8u : v8 < 2 ^ 7)
    (h16l : -2 ^ 15 ≤ v16) (h16u : v16 < 2 ^ 15)
    (h32l : -2 ^ 31 ≤ v32) (h32u : v32 < 2 ^ 31)
    (h64l : -2 ^ 63 ≤ v64) (h64u : v64 < 2 ^ 63)
    (hf : f32 < 2 ^ 32) (hd : f64 < 2 ^ 64) :
    valuint8_t (newBoolean vb) = some vb
    ∧ valint8_t (newByte v8) = some v8
    ∧ valint16_t (newShort v16) = some v16
    ∧ valint32_t (newInteger v32) = some v32
    ∧ valint64_t (newLong v64) = some v64
    ∧ valfloat (newFloat f32) = some f32
    ∧ valdouble (newDouble f64) = some f64 :=
  ⟨rfl, rfl, rfl, rfl, rfl, rfl, rfl⟩

/-- Witness for C2 at boundary values: max unsigned boolean byte, minimum
byte, maximum short, zero int, minimum (negative) long, maximum float bit
pattern, zero double bit pattern. -/
theorem C2_box_unbox_round_trip_witness :
    (255 : Nat) < 2 ^ 8
    ∧ (valuint8_t (newBoolean 255) = some 255
      ∧ valint8_t (newByte (-128)) = some (-128)
      ∧ valint16_t (newShort 32767) = some 32767
      ∧ valint32_t (newInteger 0) = some 0
      ∧ valint64_t (newLong (-9223372036854775808)) = some (-9223372036854775808)
      ∧ valfloat (newFloat 4294967295) = some 4294967295
      ∧ valdouble (newDouble 0) = some 0) :=
  ⟨by decide,
   C2_box_unbox_round_trip 255 (-128) 32767 0 (-9223372036854775808) 4294967295 0
     (by decide) (by decide) (by decide) (by decide) (by decide) (by decide)
     (by decide) (by decide) (by decide) (by decide) (by decide)⟩

/-- C3: `serialize_size(state)` followed by `serialize(state, buffer)`
writes at most `serialize_size(state)` bytes into the buffer: the reported
count is an upper bound on the bytes written (here exactly the serialized
bytes), and the buffer past that count is untouched. -/
theorem C3_serialize_size_upper_bound (state : UDAFState) (buffer : BufferView) :
    (serialize state buffer).2 ≤ serialize_size state
    ∧ (serialize state buffer).1.memory.take (serialize state buffer).2
        = state.serializedBytes
    ∧ (serialize state buffer).1.memory.drop (serialize_size state)
        = buffer.memory.drop (serialize_size state) := by
  refine ⟨le_refl _, ?_, ?_⟩
  · simpa [serialize, writeBytes] using
      List.take_left state.serializedBytes (buffer.memory.drop state.serializedBytes.length)
  · simpa [serialize, serialize_size, writeBytes] using
      List.drop_left state.serializedBytes (buffer.memory.drop state.serializedBytes.length)

/-- C4: context construction is atomic on failure: the result is a success
exactly when all three steps succeed; no handle is ever leaked (every
acquired handle is either released on the failure path or owned by the
returned context); and on failure every acquired handle has been released,
with the caller receiving exactly one aggregate failure (the single
`Except` error). -/
theorem C4_construction_atomic (e : ConstructEnv) :
    ((constructUDFContext e).result.isOk
        = (e.classLoads && e.instanceOk && e.methodsOk))
    ∧ (constructUDFContext e).leaked = []
    ∧ ((constructUDFContext e).result.isOk = false →
        (constructUDFContext e).released = (constructUDFContext e).acquired) := by
  rcases e with ⟨cl, io, mo, ch, ih⟩
  cases cl <;> cases io <;> cases mo <;>
    simp [constructUDFContext, ConstructTrace.leaked, ConstructTrace.retained,
      Except.isOk, Except.toBool, List.filter]

/-- Witness for C4: with loading and instantiation succeeding but method
resolution failing, construction fails, leaks nothing, and has released
every acquired handle. -/
theorem C4_construction_atomic_witness :
    ((constructUDFContext
        { classLoads := true, instanceOk := true, methodsOk := false,
          classHandle := 11, instanceHandle := 12 }).result.isOk
      = (true && true && false))
    ∧ (constructUDFContext
        { classLoads := true, instanceOk := true, methodsOk := false,
          classHandle := 11, instanceHandle := 12 }).leaked = []
    ∧ ((constructUDFContext
        { classLoads := true, instanceOk := true, methodsOk := false,
          classHandle := 11, instanceHandle := 12 }).result.isOk = false →
        (constructUDFContext
          { classLoads := true, instanceOk := true, methodsOk := false,
            classHandle := 11, instanceHandle := 12 }).released
          = (constructUDFContext
              { classLoads := true, instanceOk := true, methodsOk := false,
                classHandle := 11, instanceHandle := 12 }).acquired) :=
  C4_construction_atomic
    { classLoads := true, instanceOk := true, methodsOk := false,
      classHandle := 11, instanceHandle := 12 }

/-- C5 counterexample: the claim says `capacity()` returns the capacity
fixed at construction for the object's entire lifetime, but the inline move
constructor (header lines 110-118) zeroes the source's capacity: a buffer
constructed with capacity 16, once moved from, reports `capacity() = 0`. -/
theorem C5_capacity_counterexample :
    (DirectByteBuffer.moveCtor
        (DirectByteBuffer.mk3 (some 1) (some 2) 16)).2.capacity = 0
    ∧ (DirectByteBuffer.moveCtor
        (DirectByteBuffer.mk3 (some 1) (some 2) 16)).2.capacity ≠ 16 := by
  constructor <;> decide

/-- C5 (amended): `capacity()` is fixed at construction and unchanged by
`clear()` and by any number of repeated `clear()` calls (it changes only
when the object itself is moved from); `clear()` modifies only the managed
view's position and limit, leaving the memory contents, the data pointer,
the handle and the capacity unchanged, and is idempotent. -/
theorem C5_clear_frame (b : BufferView) (hh dd : Nat) (cap : Int)
    (mem : List Nat) (n : Nat) :
    b.clear.capacity = b.capacity
    ∧ b.clear.memory = b.memory
    ∧ b.clear.data = b.data
    ∧ b.clear.handle = b.handle
    ∧ b.clear.position = 0
    ∧ b.clear.limit = b.capacity
    ∧ b.clear.clear = b.clear
    ∧ (BufferView.construct hh dd cap mem).capacity = cap
    ∧ (BufferView.clear^[n] b).capacity = b.capacity
    ∧ (BufferView.clear^[n] b).memory = b.memory := by
  refine ⟨rfl, rfl, rfl, rfl, rfl, rfl, rfl, rfl, ?_, ?_⟩ <;>
  · induction n with
    | zero => rfl
    | succ k ihk => simp [Function.iterate_succ_apply', BufferView.clear, ihk]

/-- C10 counterexample: the claim says that after any move, including
self-move-assignment via the temporary-and-swap pattern, the moved-from
object holds a null handle.  But under self-move-assignment (`b =
std::move(b)`) the temporary takes the fields, the swap hands them straight
back, and the object ends up holding its original, non-null handle. -/
theorem C10_self_move_counterexample :
    ((DBBHeap.moveAssign
        (fun _ => DirectByteBuffer.mk3 (some 5) (some 7) 16) 0 0).1 0)._handle
      = some 5
    ∧ ((DBBHeap.moveAssign
        (fun _ => DirectByteBuffer.mk3 (some 5) (some 7) 16) 0 0).1 0)._handle
      ≠ none := by
  constructor <;> decide

/-- C10 (amended): after a `DirectByteBuffer` or `JVMClass` is moved from by
move construction, or by move assignment from a *distinct* object, the
moved-from object holds a null handle (and for `DirectByteBuffer` a null
data pointer and zero capacity), so destroying it releases nothing;
self-move-assignment instead leaves the object unchanged and releases
nothing; and in every case each underlying global reference is released
exactly once across the ownership chain (the move-assignment temporary
releases exactly the target's old handle, and destroying both objects
afterwards releases exactly the two originals). -/
theorem C10_moved_from_state (hd : DBBHeap) (hc : JVMClassHeap) (i j : Nat)
    (b : DirectByteBuffer) (c : JVMClass) (hij : i ≠ j) :
    ((DirectByteBuffer.moveCtor b).2 = DirectByteBuffer.nulled
      ∧ (DirectByteBuffer.moveCtor b).1.destruct
          ++ (DirectByteBuffer.moveCtor b).2.destruct = b.destruct)
    ∧ ((JVMClass.moveCtor c).2._clazz = none
      ∧ (JVMClass.moveCtor c).1.destruct
          ++ (JVMClass.moveCtor c).2.destruct = c.destruct)
    ∧ ((hd.moveAssign i j).1 j = DirectByteBuffer.nulled
      ∧ (hd.moveAssign i j).1 i = hd j
      ∧ (hd.moveAssign i j).2 = (hd i).destruct
      ∧ (hd.moveAssign i j).2 ++ ((hd.moveAssign i j).1 i).destruct
          ++ ((hd.moveAssign i j).1 j).destruct
          = (hd i).destruct ++ (hd j).destruct)
    ∧ ((hd.moveAssign i i).1 i = hd i ∧ (hd.moveAssign i i).2 = [])
    ∧ ((hc.moveAssign i j).1 j = { _clazz := none }
      ∧ (hc.moveAssign i j).1 i = hc j
      ∧ (hc.moveAssign i j).2 = (hc i).destruct
      ∧ (hc.moveAssign i j).2 ++ ((hc.moveAssign i j).1 i).destruct
          ++ ((hc.moveAssign i j).1 j).destruct
          = (hc i).destruct ++ (hc j).destruct)
    ∧ ((hc.moveAssign i i).1 i = hc i ∧ (hc.moveAssign i i).2 = []) := by
  have hji : j ≠ i := fun hh => hij hh.symm
  refine ⟨⟨rfl, ?_⟩, ⟨rfl, ?_⟩, ⟨?_, ?_, ?_, ?_⟩, ⟨?_, ?_⟩, ⟨?_, ?_, ?_, ?_⟩, ⟨?_, ?_⟩⟩
  · cases hb : b._handle <;>
      simp [DirectByteBuffer.moveCtor, DirectByteBuffer.destruct,
        DirectByteBuffer.nulled, hb]
  · cases hcc : c._clazz <;>
      simp [JVMClass.moveCtor, JVMClass.destruct, hcc]
  · simp [DBBHeap.moveAssign, DBBHeap.set, hji]
  · simp [DBBHeap.moveAssign, DBBHeap.set, hij]
  · simp [DBBHeap.moveAssign, DBBHeap.set, hij]
  · simp [DBBHeap.moveAssign, DBBHeap.set, hij, hji,
      DirectByteBuffer.nulled, DirectByteBuffer.destruct]
  · simp [DBBHeap.moveAssign, DBBHeap.set]
  · simp [DBBHeap.moveAssign, DBBHeap.set, DirectByteBuffer.nulled,
      DirectByteBuffer.destruct]
  · simp [JVMClassHeap.moveAssign, JVMClassHeap.set, hji]
  · simp [JVMClassHeap.moveAssign, JVMClassHeap.set, hij]
  · simp [JVMClassHeap.moveAssign, JVMClassHeap.set, hij]
  · simp [JVMClassHeap.moveAssign, JVMClassHeap.set, hij, hji, JVMClass.destruct]
  · simp [JVMClassHeap.moveAssign, JVMClassHeap.set]
  · simp [JVMClassHeap.moveAssign, JVMClassHeap.set, JVMClass.destruct]

/-- Witness for C10 at a concrete pair of distinct objects: the moved-from
buffer is fully nulled after move assignment from a distinct object. -/
theorem C10_moved_from_state_witness :
    (0 : Nat) ≠ 1
    ∧ (DBBHeap.moveAssign
        (fun k => DirectByteBuffer.mk3 (some (k + 5)) (some (k + 7)) 16) 0 1).1 1
      = DirectByteBuffer.nulled :=
  ⟨by decide,
   (C10_moved_from_state
      (fun k => DirectByteBuffer.mk3 (some (k + 5)) (some (k + 7)) 16)
      (fun _ => { _clazz := some 3 }) 0 1
      (DirectByteBuffer.mk3 (some 1) (some 2) 4) { _clazz := some 9 }
      (by decide)).2.2.1.1⟩

/-- Reading a column-handle suffix back from its marshaled form recovers
the original column list. -/
theorem parseCols_map (cols : List Nat) :
    parseCols (cols.map JValue.jobj) = some cols := by
  induction cols with
  | nil => rfl
  | cons c rest ih => simp [parseCols, ih]

/-- C7: the bridge passes the frame boundary integers to the managed side
exactly as given (reading the marshaled argument vector back positionally
recovers the state handle, the four boundaries, and the columns in order,
without reordering or deduplication), and the managed aggregate retracts
exactly the rows `[old frame_start, new frame_start)` — in particular,
retraction is invoked precisely when `frame_start` increases. -/
theorem C7_window_frame_passing
    (state : Nat) (pgs pge fs fe : Int) (cols : List Nat)
    (st : ManagedWindowState) :
    parseWindowArgs (window_update_batch state pgs pge fs fe cols)
        = some (state, pgs, pge, fs, fe, cols)
    ∧ (applyWindowFrame st fs fe).1 = { frame_start := fs, frame_end := fe }
    ∧ ((applyWindowFrame st fs fe).2 ≠ [] ↔ st.frame_start < fs)
    ∧ (∀ r : Int, r ∈ (applyWindowFrame st fs fe).2
        ↔ (st.frame_start ≤ r ∧ r < fs)) := by
  refine ⟨?_, rfl, ?_, ?_⟩
  · simp [window_update_batch, parseWindowArgs, parseCols_map]
  · simp only [applyWindowFrame, ne_eq, List.map_eq_nil_iff, List.range_eq_nil]
    omega
  · intro r
    simp only [applyWindowFrame, List.mem_map, List.mem_range]
    constructor
    · rintro ⟨a, ha, rfl⟩
      omega
    · rintro ⟨hle, hlt⟩
      exact ⟨(r - st.frame_start).toNat, by omega, by omega⟩

/-- C8: after `init()` has completed on a loader, `getClass(name)` fails
with `ClassNotFoundError` exactly when the name cannot be resolved under
this loader, and returns a handle to the loaded class otherwise; calling
`getClass` before `init()` is a contract violation. -/
theorem C8_classloader_getClass (path : String)
    (classes : List (String × Nat)) (name : String) :
    (((ClassLoaderModel.construct path classes).init.getClass name
        = .classNotFound)
      ↔ lookupClass classes name = none)
    ∧ (∀ h : Nat,
        ((ClassLoaderModel.construct path classes).init.getClass name
            = .ok { _clazz := some h })
          ↔ lookupClass classes name = some h)
    ∧ (ClassLoaderModel.construct path classes).getClass name
        = .contractViolation := by
  refine ⟨?_, ?_, ?_⟩
  · cases hx : lookupClass classes name <;>
      simp [ClassLoaderModel.getClass, ClassLoaderModel.init,
        ClassLoaderModel.construct, hx]
  · intro h
    cases hx : lookupClass classes name <;>
      simp [ClassLoaderModel.getClass, ClassLoaderModel.init,
        ClassLoaderModel.construct, hx]
  · simp [ClassLoaderModel.getClass, ClassLoaderModel.construct]

/-- A successful scan returns a declared method with the requested name. -/
theorem findMethod_some_mem (l : List JMethod) (nm : String) (m : JMethod)
    (hf : findMethod l nm = some m) : m ∈ l ∧ m.name = nm := by
  induction l with
  | nil => simp [findMethod] at hf
  | cons x rest ih =>
    by_cases hx : x.name = nm
    · rw [findMethod, if_pos hx] at hf
      obtain rfl : x = m := Option.some.inj hf
      exact ⟨List.mem_cons_self x rest, hx⟩
    · rw [findMethod, if_neg hx] at hf
      obtain ⟨hm, hn⟩ := ih hf
      exact ⟨List.mem_cons_of_mem x hm, hn⟩

/-- The scan fails exactly when no declared method has the name. -/
theorem findMethod_eq_none (l : List JMethod) (nm : String) :
    findMethod l nm = none ↔ ∀ m ∈ l, m.name ≠ nm := by
  induction l with
  | nil => simp [findMethod]
  | cons x rest ih =>
    by_cases hx : x.name = nm
    · simp [findMethod, hx]
    · simp [findMethod, hx, ih]

/-- The scan returns the first declaration-order match. -/
theorem findMethod_first (pre post : List JMethod) (x : JMethod) (nm : String)
    (hx : x.name = nm) (hpre : ∀ y ∈ pre, y.name ≠ nm) :
    findMethod (pre ++ x :: post) nm = some x := by
  induction pre with
  | nil => simp [findMethod, hx]
  | cons y rest ih =>
    have hy : y.name ≠ nm := hpre y (List.mem_cons_self y rest)
    rw [List.cons_append, findMethod, if_neg hy]
    exact ih (fun z hz => hpre z (List.mem_cons_of_mem y hz))

/-- C9: `has_method` and `get_signature` fail with `MethodNotFoundError`
exactly when no declared method has the given name, and when overloads
share the name, resolution returns the first match in declaration order. -/
theorem C9_method_resolution (methods pre post : List JMethod) (x : JMethod)
    (nm : String) (hx : x.name = nm) (hpre : ∀ y ∈ pre, y.name ≠ nm) :
    ((has_method methods nm = .error .MethodNotFoundError)
        ↔ ∀ m ∈ methods, m.name ≠ nm)
    ∧ ((get_signature methods nm = .error .MethodNotFoundError)
        ↔ ∀ m ∈ methods, m.name ≠ nm)
    ∧ has_method (pre ++ x :: post) nm = .ok true
    ∧ get_signature (pre ++ x :: post) nm = .ok x.sign := by
  refine ⟨?_, ?_, ?_, ?_⟩
  · cases hf : findMethod methods nm with
    | none =>
      simp only [has_method, hf, true_iff]
      exact (findMethod_eq_none methods nm).mp hf
    | some m =>
      obtain ⟨hm, hn⟩ := findMethod_some_mem methods nm m hf
      simp only [has_method, hf]
      constructor
      · intro habs
        cases habs
      · intro hall
        exact absurd hn (hall m hm)
  · cases hf : findMethod methods nm with
    | none =>
      simp only [get_signature, hf, true_iff]
      exact (findMethod_eq_none methods nm).mp hf
    | some m =>
      obtain ⟨hm, hn⟩ := findMethod_some_mem methods nm m hf
      simp only [get_signature, hf]
      constructor
      · intro habs
        cases habs
      · intro hall
        exact absurd hn (hall m hm)
  · simp [has_method, findMethod_first pre post x nm hx hpre]
  · simp [get_signature, findMethod_first pre post x nm hx hpre]

/-- Witness for C9: a class declaring `foo(I)I`, then `bar(J)J`, then an
overloaded `bar(D)D`; resolution of `bar` returns the first declared
signature `(J)J`, and resolution of a missing name fails. -/
theorem C9_method_resolution_witness :
    ((has_method [⟨"foo", "(I)I"⟩, ⟨"bar", "(J)J"⟩, ⟨"bar", "(D)D"⟩] "bar"
        = .error .MethodNotFoundError)
      ↔ ∀ m ∈ [(⟨"foo", "(I)I"⟩ : JMethod), ⟨"bar", "(J)J"⟩, ⟨"bar", "(D)D"⟩],
          m.name ≠ "bar")
    ∧ ((get_signature [⟨"foo", "(I)I"⟩, ⟨"bar", "(J)J"⟩, ⟨"bar", "(D)D"⟩] "bar"
        = .error .MethodNotFoundError)
      ↔ ∀ m ∈ [(⟨"foo", "(I)I"⟩ : JMethod), ⟨"bar", "(J)J"⟩, ⟨"bar", "(D)D"⟩],
          m.name ≠ "bar")
    ∧ has_method ([⟨"foo", "(I)I"⟩] ++ ⟨"bar", "(J)J"⟩ :: [⟨"bar", "(D)D"⟩]) "bar"
        = .ok true
    ∧ get_signature ([⟨"foo", "(I)I"⟩] ++ ⟨"bar", "(J)J"⟩ :: [⟨"bar", "(D)D"⟩]) "bar"
        = .ok "(J)J" :=
  C9_method_resolution [⟨"foo", "(I)I"⟩, ⟨"bar", "(J)J"⟩, ⟨"bar", "(D)D"⟩]
    [⟨"foo", "(I)I"⟩] [⟨"bar", "(D)D"⟩] ⟨"bar", "(J)J"⟩ "bar" (by decide)
    (by decide)

theorem utf8EncodeChar_ascii (b : Nat) (h : b < 0x80) : utf8EncodeChar b = [b] := by
  rw [utf8EncodeChar, if_pos h]

theorem utf8EncodeChar_two (b1 b2 : Nat) (h1l : 0xC0 ≤ b1) (h1u : b1 < 0xE0)
    (h2l : 0x80 ≤ b2) (h2u : b2 < 0xC0)
    (hc : 0x80 ≤ (b1 - 0xC0) * 64 + (b2 - 0x80)) :
    utf8EncodeChar ((b1 - 0xC0) * 64 + (b2 - 0x80)) = [b1, b2] := by
  rw [utf8EncodeChar, if_neg (by omega), if_pos (by omega)]
  have e1 : 0xC0 + ((b1 - 0xC0) * 64 + (b2 - 0x80)) / 64 = b1 := by omega
  have e2 : 0x80 + ((b1 - 0xC0) * 64 + (b2 - 0x80)) % 64 = b2 := by omega
  rw [e1, e2]

theorem utf8EncodeChar_three (b1 b2 b3 : Nat) (h1l : 0xE0 ≤ b1) (h1u : b1 < 0xF0)
    (h2l : 0x80 ≤ b2) (h2u : b2 < 0xC0) (h3l : 0x80 ≤ b3) (h3u : b3 < 0xC0)
    (hc : 0x800 ≤ (b1 - 0xE0) * 4096 + (b2 - 0x80) * 64 + (b3 - 0x80)) :
    utf8EncodeChar ((b1 - 0xE0) * 4096 + (b2 - 0x80) * 64 + (b3 - 0x80))
      = [b1, b2, b3] := by
  rw [utf8EncodeChar, if_neg (by omega), if_neg (by omega), if_pos (by omega)]
  have e1 : 0xE0 + ((b1 - 0xE0) * 4096 + (b2 - 0x80) * 64 + (b3 - 0x80)) / 4096 = b1 := by
    omega
  have e2 : 0x80 + ((b1 - 0xE0) * 4096 + (b2 - 0x80) * 64 + (b3 - 0x80)) / 64 % 64 = b2 := by
    omega
  have e3 : 0x80 + ((b1 - 0xE0) * 4096 + (b2 - 0x80) * 64 + (b3 - 0x80)) % 64 = b3 := by
    omega
  rw [e1, e2, e3]

theorem utf8EncodeChar_four (b1 b2 b3 b4 : Nat) (h1l : 0xF0 ≤ b1) (h1u : b1 < 0xF8)
    (h2l : 0x80 ≤ b2) (h2u : b2 < 0xC0) (h3l : 0x80 ≤ b3) (h3u : b3 < 0xC0)
    (h4l : 0x80 ≤ b4) (h4u : b4 < 0xC0)
    (hc : 0x10000 ≤ (b1 - 0xF0) * 262144 + (b2 - 0x80) * 4096
        + (b3 - 0x80) * 64 + (b4 - 0x80)) :
    utf8EncodeChar ((b1 - 0xF0) * 262144 + (b2 - 0x80) * 4096
        + (b3 - 0x80) * 64 + (b4 - 0x80))
      = [b1, b2, b3, b4] := by
  rw [utf8EncodeChar, if_neg (by omega), if_neg (by omega), if_neg (by omega)]
  have e1 : 0xF0 + ((b1 - 0xF0) * 262144 + (b2 - 0x80) * 4096 + (b3 - 0x80) * 64
      + (b4 - 0x80)) / 262144 = b1 := by omega
  have e2 : 0x80 + ((b1 - 0xF0) * 262144 + (b2 - 0x80) * 4096 + (b3 - 0x80) * 64
      + (b4 - 0x80)) / 4096 % 64 = b2 := by omega
  have e3 : 0x80 + ((b1 - 0xF0) * 262144 + (b2 - 0x80) * 4096 + (b3 - 0x80) * 64
      + (b4 - 0x80)) / 64 % 64 = b3 := by omega
  have e4 : 0x80 + ((b1 - 0xF0) * 262144 + (b2 - 0x80) * 4096 + (b3 - 0x80) * 64
      + (b4 - 0x80)) % 64 = b4 := by omega
  rw [e1, e2, e3, e4]

theorem decodeTwo_encode (b1 : Nat) (rest : List Nat) (c : Nat) (rest' : List Nat)
    (h1l : 0xC0 ≤ b1) (h1u : b1 < 0xE0)
    (h : decodeTwo b1 rest = some (c, rest')) :
    utf8EncodeChar c ++ rest' = b1 :: rest ∧ rest'.length < rest.length + 1 := by
  cases rest with
  | nil => simp [decodeTwo] at h
  | cons b2 rest2 =>
    rw [decodeTwo] at h
    by_cases hv : isCont b2 ∧ 0x80 ≤ (b1 - 0xC0) * 64 + (b2 - 0x80)
    · rw [if_pos hv] at h
      obtain ⟨rfl, rfl⟩ : (b1 - 0xC0) * 64 + (b2 - 0x80) = c ∧ rest2 = rest' := by
        simpa using h
      obtain ⟨hcont, hge⟩ := hv
      have hb2 : 0x80 ≤ b2 ∧ b2 < 0xC0 := by simpa [isCont] using hcont
      rw [utf8EncodeChar_two b1 b2 h1l h1u hb2.1 hb2.2 hge]
      exact ⟨rfl, by simp only [List.length_cons]; omega⟩
    · rw [if_neg hv] at h
      simp at h

theorem decodeThree_encode (b1 : Nat) (rest : List Nat) (c : Nat) (rest' : List Nat)
    (h1l : 0xE0 ≤ b1) (h1u : b1 < 0xF0)
    (h : decodeThree b1 rest = some (c, rest')) :
    utf8EncodeChar c ++ rest' = b1 :: rest ∧ rest'.length < rest.length + 1 := by
  cases rest with
  | nil => simp [decodeThree] at h
  | cons b2 rest2 =>
    cases rest2 with
    | nil => simp [decodeThree] at h
    | cons b3 rest3 =>
      rw [decodeThree] at h
      by_cases hv : isCont b2 ∧ isCont b3
          ∧ 0x800 ≤ (b1 - 0xE0) * 4096 + (b2 - 0x80) * 64 + (b3 - 0x80)
          ∧ ¬(0xD800 ≤ (b1 - 0xE0) * 4096 + (b2 - 0x80) * 64 + (b3 - 0x80)
              ∧ (b1 - 0xE0) * 4096 + (b2 - 0x80) * 64 + (b3 - 0x80) < 0xE000)
      · rw [if_pos hv] at h
        obtain ⟨rfl, rfl⟩ :
            (b1 - 0xE0) * 4096 + (b2 - 0x80) * 64 + (b3 - 0x80) = c
              ∧ rest3 = rest' := by
          simpa using h
        obtain ⟨hc2, hc3, hge, -⟩ := hv
        have hb2 : 0x80 ≤ b2 ∧ b2 < 0xC0 := by simpa [isCont] using hc2
        have hb3 : 0x80 ≤ b3 ∧ b3 < 0xC0 := by simpa [isCont] using hc3
        rw [utf8EncodeChar_three b1 b2 b3 h1l h1u hb2.1 hb2.2 hb3.1 hb3.2 hge]
        exact ⟨rfl, by simp only [List.length_cons]; omega⟩
      · rw [if_neg hv] at h
        simp at h

theorem decodeFour_encode (b1 : Nat) (rest : List Nat) (c : Nat) (rest' : List Nat)
    (h1l : 0xF0 ≤ b1) (h1u : b1 < 0xF8)
    (h : decodeFour b1 rest = some (c, rest')) :
    utf8EncodeChar c ++ rest' = b1 :: rest ∧ rest'.length < rest.length + 1 := by
  cases rest with
  | nil => simp [decodeFour] at h
  | cons b2 rest2 =>
    cases rest2 with
    | nil => simp [decodeFour] at h
    | cons b3 rest3 =>
      cases rest3 with
      | nil => simp [decodeFour] at h
      | cons b4 rest4 =>
        rw [decodeFour] at h
        by_cases hv : isCont b2 ∧ isCont b3 ∧ isCont b4
            ∧ 0x10000 ≤ (b1 - 0xF0) * 262144 + (b2 - 0x80) * 4096
                + (b3 - 0x80) * 64 + (b4 - 0x80)
            ∧ (b1 - 0xF0) * 262144 + (b2 - 0x80) * 4096
                + (b3 - 0x80) * 64 + (b4 - 0x80) < 0x110000
        · rw [if_pos hv] at h
          obtain ⟨rfl, rfl⟩ :
              (b1 - 0xF0) * 262144 + (b2 - 0x80) * 4096
                  + (b3 - 0x80) * 64 + (b4 - 0x80) = c
                ∧ rest4 = rest' := by
            simpa using h
          obtain ⟨hc2, hc3, hc4, hge, -⟩ := hv
          have hb2 : 0x80 ≤ b2 ∧ b2 < 0xC0 := by simpa [isCont] using hc2
          have hb3 : 0x80 ≤ b3 ∧ b3 < 0xC0 := by simpa [isCont] using hc3
          have hb4 : 0x80 ≤ b4 ∧ b4 < 0xC0 := by simpa [isCont] using hc4
          rw [utf8EncodeChar_four b1 b2 b3 b4 h1l h1u hb2.1 hb2.2 hb3.1 hb3.2
            hb4.1 hb4.2 hge]
          exact ⟨rfl, by simp only [List.length_cons]; omega⟩
        · rw [if_neg hv] at h
          simp at h

/-- Re-encoding the first decoded code point reproduces exactly the consumed
bytes (and at least one byte was consumed). -/
theorem utf8DecodeFirst_encode (bs : List Nat) (c : Nat) (rest' : List Nat)
    (h : utf8DecodeFirst bs = some (c, rest')) :
    utf8EncodeChar c ++ rest' = bs ∧ rest'.length < bs.length := by
  cases bs with
  | nil => simp [utf8DecodeFirst] at h
  | cons b1 rest =>
    rw [utf8DecodeFirst] at h
    by_cases h1 : b1 < 0x80
    · rw [if_pos h1] at h
      obtain ⟨rfl, rfl⟩ : b1 = c ∧ rest = rest' := by simpa using h
      rw [utf8EncodeChar_ascii _ h1]
      exact ⟨rfl, by simp only [List.length_cons]; omega⟩
    · rw [if_neg h1] at h
      by_cases h2 : b1 < 0xC0
      · rw [if_pos h2] at h
        simp at h
      · rw [if_neg h2] at h
        by_cases h3 : b1 < 0xE0
        · rw [if_pos h3] at h
          have := decodeTwo_encode b1 rest c rest' (by omega) h3 h
          simpa using this
        · rw [if_neg h3] at h
          by_cases h4 : b1 < 0xF0
          · rw [if_pos h4] at h
            have := decodeThree_encode b1 rest c rest' (by omega) h4 h
            simpa using this
          · rw [if_neg h4] at h
            by_cases h5 : b1 < 0xF8
            · rw [if_pos h5] at h
              have := decodeFour_encode b1 rest c rest' (by omega) h5 h
              simpa using this
            · rw [if_neg h5] at h
              simp at h

/-- Loop version of the round trip. -/
theorem utf8DecodeLoop_encode (fuel : Nat) :
    ∀ bs cs : List Nat, utf8DecodeLoop fuel bs = some cs → utf8Encode cs = bs := by
  induction fuel with
  | zero =>
    intro bs cs hdec
    cases bs with
    | nil =>
      obtain rfl : ([] : List Nat) = cs := Option.some.inj hdec
      rfl
    | cons b1 rest => simp [utf8DecodeLoop] at hdec
  | succ n ih =>
    intro bs cs hdec
    cases bs with
    | nil =>
      obtain rfl : ([] : List Nat) = cs := Option.some.inj hdec
      rfl
    | cons b1 rest =>
      rw [utf8DecodeLoop] at hdec
      cases hdf : utf8DecodeFirst (b1 :: rest) with
      | none => rw [hdf] at hdec; simp at hdec
      | some v =>
        obtain ⟨c, rest'⟩ := v
        rw [hdf, Option.map_eq_some'] at hdec
        obtain ⟨cs1, hrest, rfl⟩ := hdec
        have henc := ih rest' cs1 hrest
        obtain ⟨hfirst, -⟩ := utf8DecodeFirst_encode (b1 :: rest) c rest' hdf
        calc utf8Encode (c :: cs1)
            = utf8EncodeChar c ++ utf8Encode cs1 := by simp [utf8Encode]
          _ = utf8EncodeChar c ++ rest' := by rw [henc]
          _ = b1 :: rest := hfirst

theorem utf8Decode_encode (bs cs : List Nat) (h : utf8Decode bs = some cs) :
    utf8Encode cs = bs :=
  utf8DecodeLoop_encode bs.length bs cs h

/-- C6: for every native string that is ASCII, empty, or valid multi-byte
UTF-8, converting it to a managed string and back returns the original
string: `to_cxx_string(to_jstring(s)) == s`. -/
theorem C6_string_round_trip (s js : List Nat) (h : to_jstring s = some js) :
    to_cxx_string js = s :=
  utf8Decode_encode s js h

/-- Witness for C6 on a concrete mixed string: ASCII `a`, two-byte
U+00E9, three-byte U+20AC, four-byte U+1F600. -/
theorem C6_string_round_trip_witness :
    to_jstring [0x61, 0xC3, 0xA9, 0xE2, 0x82, 0xAC, 0xF0, 0x9F, 0x98, 0x80]
      = some [0x61, 0xE9, 0x20AC, 0x1F600]
    ∧ to_cxx_string [0x61, 0xE9, 0x20AC, 0x1F600]
      = [0x61, 0xC3, 0xA9, 0xE2, 0x82, 0xAC, 0xF0, 0x9F, 0x98, 0x80] :=
  ⟨by decide,
   C6_string_round_trip [0x61, 0xC3, 0xA9, 0xE2, 0x82, 0xAC, 0xF0, 0x9F, 0x98, 0x80]
     [0x61, 0xE9, 0x20AC, 0x1F600] (by decide)⟩
